import Mathlib

/-!
Shallow embedding of `src/ldap2jira/map.py` (class `LDAP2JiraUserMap`).

External collaborators (the LDAP transport, the JIRA search transport and the
map-file parser) are modelled as oracle functions passed in as parameters;
the module's own logic (`__init__` credential validation, `_ldap_jira_match`,
`_process_username`, the map update in `find_jira_accounts`) is translated
from the source.  Python falsiness of a string is the empty string; a Python
`dict` is an association list queried with `lookupMap`; a Python `set` of
strings is kept as a duplicate-free list in insertion order, and because
Python set iteration order is implementation-defined, every place the code
iterates the set (`user_dict['jira-results'] = jira_account_usernames`) goes
through a parameter `enum` assumed only to enumerate the set's elements.
-/

namespace Ldap2Jira

/-- Score constant `NO_MATCH = 0` from the source. -/
def NO_MATCH : Nat := 0

/-- Score constant `PARTIAL_MATCH = 1` from the source. -/
def PARTIAL_MATCH : Nat := 1

/-- Score constant `MATCH = 2` from the source. -/
def MATCH : Nat := 2

/-- An LDAP result record: field name to string value (a Python dict). -/
abbrev LdapAccount := List (String × String)

/-- Python dict lookup on an association list (first binding wins). -/
def lookupMap (m : List (String × String)) (k : String) : Option String :=
  (m.find? (fun p => p.1 == k)).map (·.2)

/-- A JIRA account object.  `emailAddress` and `displayName` are `Option`
because a real JIRA user object may lack them, which the source's scorer
catches as an `AttributeError`. -/
structure JiraUser where
  name : String
  emailAddress : Option String
  displayName : Option String
deriving DecidableEq, Repr

/-- The configuration fields of `LDAP2JiraUserMap` that the resolution logic
reads, plus the instance's current file map `self.map`. -/
structure MapConfig where
  ldap_fields_username : List String
  ldap_fields_mail : List String
  ldap_fields_name : List String
  ldap_fields_jira_search : List String
  email_domain : String
  map : List (String × String)
deriving DecidableEq, Repr

/-- Python `str.lstrip('@')`: drop every leading `'@'` character. -/
def lstrip_at (s : String) : String :=
  String.mk (s.data.dropWhile (fun c => c == '@'))

/-- Construction-time normalisation `self.email_domain = email_domain.lstrip('@')`
(line 124), bundled with the configured field lists. -/
def mk_map_config (fu fm fn fs : List String) (email_domain : String)
    (m : List (String × String)) : MapConfig :=
  { ldap_fields_username := fu
    ldap_fields_mail := fm
    ldap_fields_name := fn
    ldap_fields_jira_search := fs
    email_domain := lstrip_at email_domain
    map := m }

/-- Python `str.endswith`: the suffix's characters are a suffix of the
string's characters. -/
def str_ends_with (s suffix : String) : Bool :=
  suffix.data.isSuffixOf s.data

/-- Python truthiness of an optional string argument: `None` and `''` are
falsy, everything else truthy. -/
def truthy : Option String → Bool
  | none => false
  | some s => s ≠ ""

/-- The credential validation at the top of `LDAP2JiraUserMap.__init__`
(lines 102-106): raising `ValueError` is modelled as `Except.error` with the
source's message. -/
def init_check (jira_user jira_password jira_auth_token : Option String) :
    Except String Unit :=
  if truthy jira_user || truthy jira_password then
    if !(truthy jira_user && truthy jira_password) then
      Except.error "JIRA user and password required for basic auth."
    else Except.ok ()
  else if !(truthy jira_auth_token) then
    Except.error "JIRA user/password or auth token required."
  else Except.ok ()

/-- `_ldap_jira_match` (lines 193-244): compare one LDAP record with one JIRA
account, returning `MATCH`, `PARTIAL_MATCH` or `NO_MATCH`.  A missing
`emailAddress` or `displayName` is the source's `AttributeError` branch. -/
def ldap_jira_match (cfg : MapConfig) (ldap_account : LdapAccount)
    (jira_account : JiraUser) : Nat :=
  match jira_account.emailAddress, jira_account.displayName with
  | some jira_email, some jira_displayName =>
    if str_ends_with jira_email ("@" ++ cfg.email_domain) then
      let ldap_emails := cfg.ldap_fields_mail.filterMap (lookupMap ldap_account)
      let ldap_usernames := cfg.ldap_fields_username.filterMap (lookupMap ldap_account)
      if jira_email ∈ ldap_emails ∨ jira_account.name ∈ ldap_usernames then
        MATCH
      else
        let ldap_names := cfg.ldap_fields_name.filterMap (lookupMap ldap_account)
        if jira_account.name ∈ ldap_names ∨ jira_displayName ∈ ldap_names then
          PARTIAL_MATCH
        else NO_MATCH
    else NO_MATCH
  | _, _ => NO_MATCH

/-- The result dict built by `_process_username`: the keys `status`,
`jira-account` and `jira-results` are optional, `username` always present. -/
structure UserDict where
  username : String
  status : Option String := none
  jira_account : Option String := none
  jira_results : Option (List String) := none
deriving DecidableEq, Repr

/-- Adding to the Python set `jira_account_usernames`, kept as a
duplicate-free list in insertion order. -/
def seenAdd (seen : List String) (n : String) : List String :=
  if n ∈ seen then seen else seen ++ [n]

/-- State carried out of the inner candidate loop of `_process_username`
(lines 320-337). -/
structure CandLoopOut where
  seen : List String
  partial_single_matches : List String
  matched : Option String
deriving DecidableEq, Repr

/-- The inner candidate loop (lines 320-337): for each JIRA account in the
search results, skip it when already seen and the search was not a
single-result search; otherwise record it as seen, score it, stop with a
resolved match on `MATCH`, and on `PARTIAL_MATCH` from a single-result
search append it (if new) to `partial_single_matches`. -/
def process_candidates (cfg : MapConfig) (ldap_account : LdapAccount)
    (single_result : Bool) :
    List JiraUser → List String → List String → CandLoopOut
  | [], seen, psm => ⟨seen, psm, none⟩
  | jira_account :: rest, seen, psm =>
    if jira_account.name ∈ seen ∧ ¬ single_result then
      process_candidates cfg ldap_account single_result rest seen psm
    else if ldap_jira_match cfg ldap_account jira_account = MATCH then
      ⟨seenAdd seen jira_account.name, psm, some jira_account.name⟩
    else if ldap_jira_match cfg ldap_account jira_account = PARTIAL_MATCH
        ∧ single_result then
      process_candidates cfg ldap_account single_result rest
        (seenAdd seen jira_account.name) (seenAdd psm jira_account.name)
    else
      process_candidates cfg ldap_account single_result rest
        (seenAdd seen jira_account.name) psm

/-- State carried out of the seed loop (lines 316-341), plus the list of
seed values actually sent to `jira_search_user`. -/
structure SeedLoopOut where
  seen : List String
  partial_single_matches : List String
  matched : Option String
  calls : List String
deriving DecidableEq, Repr

/-- The seed loop (lines 316-341): search JIRA for each seed value in order,
run the candidate loop, and stop as soon as a seed produced a resolved
match (`if 'jira-account' in user_dict: break`). -/
def process_seeds (cfg : MapConfig) (ldap_account : LdapAccount)
    (jiraS : String → List JiraUser) :
    List String → List String → List String → SeedLoopOut
  | [], seen, psm => ⟨seen, psm, none, []⟩
  | query :: rest, seen, psm =>
    let result_jira_accounts := jiraS query
    let single_result := result_jira_accounts.length == 1
    let c := process_candidates cfg ldap_account single_result
      result_jira_accounts seen psm
    match c.matched with
    | some a => ⟨c.seen, c.partial_single_matches, some a, [query]⟩
    | none =>
      let s := process_seeds cfg ldap_account jiraS rest c.seen
        c.partial_single_matches
      ⟨s.seen, s.partial_single_matches, s.matched, query :: s.calls⟩

/-- One iteration of the `jira_queries` loop (lines 301-310): skip a field
that is absent or whose value is falsy, and skip a value already
collected; otherwise append the value. -/
def jira_query_step (ldap_account : LdapAccount) (qs : List String)
    (field : String) : List String :=
  match lookupMap ldap_account field with
  | none => qs
  | some v => if v = "" then qs else if v ∈ qs then qs else qs ++ [v]

/-- Building `jira_queries` (lines 299-310): the configured ticket-search
fields in order, folded through `jira_query_step`. -/
def jira_queries (fields : List String) (ldap_account : LdapAccount) :
    List String :=
  fields.foldl (jira_query_step ldap_account) []

/-- The verdict steps after the seed loop (lines 343-362), in source order:
empty seen-set returns `missing`; a resolved match has already written
`status = 'found'` and `jira-account`; a `partial_single_matches` list of
length exactly one then writes `found` with its entry (the source has no
guard against a resolved match here); finally, if no `jira-account` key was
written, the verdict is `ambiguous` with `jira-results` set to the seen-set,
enumerated by `enum` (Python set iteration order). -/
def verdict (enum : List String → List String) (username : String)
    (seen psm : List String) (matched : Option String) : UserDict :=
  if seen = [] then { username := username, status := some "missing" }
  else
    let base : UserDict :=
      match matched with
      | some a =>
        { username := username, status := some "found", jira_account := some a }
      | none => { username := username }
    let d1 : UserDict :=
      if psm.length = 1 then
        { base with status := some "found", jira_account := some psm.headI }
      else base
    if d1.jira_account = none then
      { d1 with status := some "ambiguous", jira_results := some (enum seen) }
    else d1

/-- The outcome of `_process_username` together with the directory queries
and ticket searches it performed. -/
structure ProcResult where
  dict : UserDict
  ldapCalls : List String
  jiraCalls : List String
deriving DecidableEq, Repr

/-- `_process_username` (lines 262-362).  `ldapQ` is the Identity Source
Adapter (`self.ldap_query`), `jiraS` the Ticket Account Search Adapter
(`self.jira_search_user`), `enum` the implementation-defined iteration
order of a Python string set; the performed adapter calls are returned
alongside the result dict. -/
def process_username (cfg : MapConfig) (ldapQ : String → List LdapAccount)
    (jiraS : String → List JiraUser) (enum : List String → List String)
    (username : String) : ProcResult :=
  if username = "" then ⟨{ username := username }, [], []⟩
  else
    match lookupMap cfg.map username with
    | some acct =>
      ⟨{ username := username, status := some "found",
         jira_account := some acct }, [], []⟩
    | none =>
      let ldap_results := ldapQ username
      if ldap_results.length = 0 then
        ⟨{ username := username, status := some "not_in_ldap" },
          [username], []⟩
      else if ldap_results.length > 1 then
        ⟨{ username := username, status := some "missing" }, [username], []⟩
      else
        let ldap_account := ldap_results.headI
        let s := process_seeds cfg ldap_account jiraS
          (jira_queries cfg.ldap_fields_jira_search ldap_account) [] []
        ⟨verdict enum username s.seen s.partial_single_matches s.matched,
          [username], s.calls⟩

/-- `self.map.update(self.load_map(self.map_file))` (line 406): dict-update
lookup semantics — a key of the freshly loaded map wins, every other key
keeps its previous value. -/
def map_update (old upd : List (String × String)) : List (String × String) :=
  upd ++ old

/-- `find_jira_accounts` (lines 364-421), sequentialised: merge the loaded
map file into the instance map, resolve each user name with the merged map,
drop empty user names, and collapse duplicate user names to one entry
(last write wins; thread completion order is not modelled, which only
matters for duplicated input names, whose results coincide anyway because
`process_username` is deterministic).  Returns the updated instance map and
the result list. -/
def find_jira_accounts (cfg : MapConfig) (file_map : List (String × String))
    (ldapQ : String → List LdapAccount) (jiraS : String → List JiraUser)
    (enum : List String → List String) (usernames : List String) :
    List (String × String) × List (String × UserDict) :=
  let m := map_update cfg.map file_map
  let cfg' := { cfg with map := m }
  (m,
    usernames.foldl
      (fun users username =>
        if username = "" then users
        else
          (users.filter (fun p => p.1 ≠ username)) ++
            [(username, (process_username cfg' ldapQ jiraS enum username).dict)])
      [])

/-- The account names appearing in the single-result searches among the
seed values in `queries`. -/
def single_result_names (jiraS : String → List JiraUser)
    (queries : List String) : List String :=
  queries.foldr
    (fun q acc =>
      if (jiraS q).length = 1 then (jiraS q).map (·.name) ++ acc else acc)
    []

/-- Keep the first occurrence of every value, deleting later duplicates. -/
def first_dedup : List String → List String
  | [] => []
  | a :: l => a :: first_dedup (l.filter (fun b => b ≠ a))
  termination_by l => l.length
  decreasing_by
    simp only [List.length_cons]
    exact Nat.lt_succ_of_le (List.length_filter_le _ _)

/-- Spec-side formulation of the seed sequence, following the spec's words:
take the configured ticket-search fields in their configured order, keep the
values of the fields that are present and non-empty, and drop every value
equal to one already collected from an earlier field (first-seen order
preserved). -/
def seed_sequence_spec (fields : List String) (ldap_account : LdapAccount) :
    List String :=
  first_dedup ((fields.filterMap (lookupMap ldap_account)).filter (fun v => v ≠ ""))

/-- A small configuration used by the concrete theorems: search LDAP fields
`uid` then `mail`, match user names on `uid`, emails on `mail`, names on
`cn`, with email domain `corp.com` and an empty file map. -/
def demo_config : MapConfig :=
  mk_map_config ["uid"] ["mail"] ["cn"] ["uid", "mail"] "corp.com" []

/-- A concrete LDAP record for user `u`. -/
def demo_ldap_record : LdapAccount :=
  [("uid", "u"), ("mail", "u@corp.com"), ("cn", "Full Name")]

/-- A directory oracle holding exactly the record of `u`. -/
def demo_ldapQ : String → List LdapAccount := fun q =>
  if q = "u" then [demo_ldap_record] else []

/-- A JIRA search oracle where the first seed (`u`) returns a single,
partially matching account `a1` and the second seed (`u@corp.com`) returns
a single fully matching account `u`. -/
def bug_jiraS : String → List JiraUser := fun q =>
  if q = "u" then [⟨"a1", some "a1@corp.com", some "Full Name"⟩]
  else if q = "u@corp.com" then [⟨"u", some "u@corp.com", some "U N"⟩]
  else []

/-- A JIRA search oracle where the seed `u` returns two accounts that score
`NO_MATCH` (wrong email domain). -/
def noscore_jiraS : String → List JiraUser := fun q =>
  if q = "u" then
    [⟨"a", some "x@other.com", some "A"⟩, ⟨"b", some "y@other.com", some "B"⟩]
  else []

/-- A JIRA search oracle where the seed `u` returns a single partially
matching account `a1` and every other seed returns nothing. -/
def one_partial_jiraS : String → List JiraUser := fun q =>
  if q = "u" then [⟨"a1", some "a1@corp.com", some "Full Name"⟩] else []

/-- A configuration whose file map maps the empty user name. -/
def empty_key_config : MapConfig := { demo_config with map := [("", "x")] }

/-- A configuration whose file map maps `alice` to `alice.j`. -/
def override_config : MapConfig :=
  { demo_config with map := [("alice", "alice.j")] }

/-- A configuration whose file map maps `u` to `a`, for the map-update
theorems. -/
def remap_config : MapConfig := { demo_config with map := [("u", "a")] }

/-- Override-map hit: `_process_username` short-circuits with `found` and the
mapped account id, performing no adapter call (lines 274-282). -/
theorem process_username_override (cfg : MapConfig)
    (ldapQ : String → List LdapAccount) (jiraS : String → List JiraUser)
    (enum : List String → List String) (username acct : String)
    (hne : username ≠ "") (hmap : lookupMap cfg.map username = some acct) :
    process_username cfg ldapQ jiraS enum username =
      ⟨{ username := username, status := some "found",
         jira_account := some acct }, [], []⟩ := by
  unfold process_username
  rw [if_neg hne, hmap]

/-- Main-path reduction of `_process_username` when the override map misses
and the directory returns exactly one record. -/
theorem process_username_single (cfg : MapConfig)
    (ldapQ : String → List LdapAccount) (jiraS : String → List JiraUser)
    (enum : List String → List String) (username : String)
    (ldap_account : LdapAccount)
    (hne : username ≠ "") (hmap : lookupMap cfg.map username = none)
    (hldap : ldapQ username = [ldap_account]) :
    process_username cfg ldapQ jiraS enum username =
      ⟨verdict enum username
          (process_seeds cfg ldap_account jiraS
            (jira_queries cfg.ldap_fields_jira_search ldap_account) [] []).seen
          (process_seeds cfg ldap_account jiraS
            (jira_queries cfg.ldap_fields_jira_search ldap_account)
            [] []).partial_single_matches
          (process_seeds cfg ldap_account jiraS
            (jira_queries cfg.ldap_fields_jira_search ldap_account) [] []).matched,
        [username],
        (process_seeds cfg ldap_account jiraS
          (jira_queries cfg.ldap_fields_jira_search ldap_account) [] []).calls⟩ := by
  unfold process_username
  rw [if_neg hne, hmap, hldap]
  simp

/-- Verdict when no resolved match was recorded and the single-partial list
does not have exactly one entry: `ambiguous` with the enumerated seen-set. -/
theorem verdict_ambiguous (enum : List String → List String)
    (username : String) (seen psm : List String)
    (hseen : seen ≠ []) (hpsm : psm.length ≠ 1) :
    verdict enum username seen psm none =
      { username := username, status := some "ambiguous",
        jira_results := some (enum seen) } := by
  simp [verdict, hseen, hpsm]

/-- Verdict when no resolved match was recorded and the single-partial list
has exactly one entry: `found` with that entry. -/
theorem verdict_one_partial (enum : List String → List String)
    (username : String) (seen : List String) (a : String)
    (hseen : seen ≠ []) :
    verdict enum username seen [a] none =
      { username := username, status := some "found",
        jira_account := some a } := by
  simp [verdict, hseen]

/-- C3 counterexample: the empty user name can be a key of the override map,
yet resolution returns no `found` verdict for it, because
`_process_username` exits before the override check when the user name is
falsy (line 269). -/
theorem C3_counterexample :
    lookupMap empty_key_config.map "" = some "x" ∧
    (process_username empty_key_config (fun _ => []) (fun _ => []) id "").dict
      = { username := "" } ∧
    ({ username := "" } : UserDict).status ≠ some "found" := by
  decide

/-- C3 (amended to non-empty user names): for every non-empty user name that
is a key of the override map, resolution returns `found` with the mapped
account id and performs no directory query and no ticket search. -/
theorem C3_override_precedence (cfg : MapConfig)
    (ldapQ : String → List LdapAccount) (jiraS : String → List JiraUser)
    (enum : List String → List String) (username acct : String)
    (hne : username ≠ "") (hmap : lookupMap cfg.map username = some acct) :
    (process_username cfg ldapQ jiraS enum username).dict.status = some "found" ∧
    (process_username cfg ldapQ jiraS enum username).dict.jira_account = some acct ∧
    (process_username cfg ldapQ jiraS enum username).ldapCalls = [] ∧
    (process_username cfg ldapQ jiraS enum username).jiraCalls = [] := by
  rw [process_username_override cfg ldapQ jiraS enum username acct hne hmap]
  exact ⟨rfl, rfl, rfl, rfl⟩

/-- C3 witness: `alice` is in the override map and resolves to `alice.j`
with no adapter calls. -/
theorem C3_witness :
    ("alice" : String) ≠ "" ∧
    lookupMap override_config.map "alice" = some "alice.j" ∧
    ((process_username override_config demo_ldapQ bug_jiraS id "alice").dict.status
        = some "found" ∧
      (process_username override_config demo_ldapQ bug_jiraS id "alice").dict.jira_account
        = some "alice.j" ∧
      (process_username override_config demo_ldapQ bug_jiraS id "alice").ldapCalls = [] ∧
      (process_username override_config demo_ldapQ bug_jiraS id "alice").jiraCalls = []) :=
  ⟨by decide, by decide,
    C3_override_precedence override_config demo_ldapQ bug_jiraS id "alice" "alice.j"
      (by decide) (by decide)⟩

/-- C4: without an override hit, a directory query returning zero records
yields `not_in_ldap` and more than one record yields `missing`; in both
cases no ticket search is performed and neither an account nor a candidate
list is reported (lines 285-295). -/
theorem C4_record_count_decides (cfg : MapConfig)
    (ldapQ : String → List LdapAccount) (jiraS : String → List JiraUser)
    (enum : List String → List String) (username : String)
    (hne : username ≠ "") (hmap : lookupMap cfg.map username = none) :
    ((ldapQ username).length = 0 →
      process_username cfg ldapQ jiraS enum username =
        ⟨{ username := username, status := some "not_in_ldap" },
          [username], []⟩) ∧
    ((ldapQ username).length > 1 →
      process_username cfg ldapQ jiraS enum username =
        ⟨{ username := username, status := some "missing" }, [username], []⟩) := by
  constructor
  · intro h0
    unfold process_username
    rw [if_neg hne, hmap]
    simp [h0]
  · intro h1
    have h0 : ¬ (ldapQ username).length = 0 := by omega
    unfold process_username
    rw [if_neg hne, hmap]
    simp [h0, h1]

/-- C4 witness: a user name with no directory record resolves to
`not_in_ldap`, and one with two directory records resolves to `missing`,
both without any ticket search. -/
theorem C4_witness :
    process_username demo_config (fun _ => []) bug_jiraS id "ghost" =
      ⟨{ username := "ghost", status := some "not_in_ldap" }, ["ghost"], []⟩ ∧
    process_username demo_config (fun _ => [demo_ldap_record, demo_ldap_record])
        bug_jiraS id "u" =
      ⟨{ username := "u", status := some "missing" }, ["u"], []⟩ :=
  ⟨(C4_record_count_decides demo_config (fun _ => []) bug_jiraS id "ghost"
      (by decide) (by decide)).1 (by decide),
    (C4_record_count_decides demo_config
      (fun _ => [demo_ldap_record, demo_ldap_record]) bug_jiraS id "u"
      (by decide) (by decide)).2 (by decide)⟩

/-- C5: the constructor's credential validation (lines 102-106): all
credentials absent is an error, a half-supplied basic-auth pair is an error
whatever the token, a complete basic-auth pair passes, and a token with no
basic-auth field passes. -/
theorem C5_credential_validation
    (jira_user jira_password jira_auth_token : Option String) :
    (truthy jira_user = false → truthy jira_password = false →
      truthy jira_auth_token = false →
      init_check jira_user jira_password jira_auth_token =
        Except.error "JIRA user/password or auth token required.") ∧
    (truthy jira_user = true → truthy jira_password = false →
      init_check jira_user jira_password jira_auth_token =
        Except.error "JIRA user and password required for basic auth.") ∧
    (truthy jira_user = false → truthy jira_password = true →
      init_check jira_user jira_password jira_auth_token =
        Except.error "JIRA user and password required for basic auth.") ∧
    (truthy jira_user = true → truthy jira_password = true →
      init_check jira_user jira_password jira_auth_token = Except.ok ()) ∧
    (truthy jira_user = false → truthy jira_password = false →
      truthy jira_auth_token = true →
      init_check jira_user jira_password jira_auth_token = Except.ok ()) := by
  refine ⟨?_, ?_, ?_, ?_, ?_⟩
  · intro h1 h2 h3
    simp [init_check, h1, h2, h3]
  · intro h1 h2
    simp [init_check, h1, h2]
  · intro h1 h2
    simp [init_check, h1, h2]
  · intro h1 h2
    simp [init_check, h1, h2]
  · intro h1 h2 h3
    simp [init_check, h1, h2, h3]

/-- C5 witness: concrete credential combinations, including the empty
string counting as absent. -/
theorem C5_witness :
    init_check none none none =
      Except.error "JIRA user/password or auth token required." ∧
    init_check (some "u") none (some "t") =
      Except.error "JIRA user and password required for basic auth." ∧
    init_check (some "") (some "p") none =
      Except.error "JIRA user and password required for basic auth." ∧
    init_check (some "u") (some "p") none = Except.ok () ∧
    init_check none none (some "t") = Except.ok () :=
  ⟨(C5_credential_validation none none none).1 rfl rfl rfl,
    (C5_credential_validation (some "u") none (some "t")).2.1 (by decide) rfl,
    (C5_credential_validation (some "") (some "p") none).2.2.1 (by decide)
      (by decide),
    (C5_credential_validation (some "u") (some "p") none).2.2.2.1 (by decide)
      (by decide),
    (C5_credential_validation none none (some "t")).2.2.2.2 rfl rfl (by decide)⟩

/-- C6: the scorer's domain gate — a candidate whose email does not end in
`@` followed by the configured domain scores `NO_MATCH` whatever its other
attributes, and a candidate missing its email or display-name attribute
also scores `NO_MATCH` (lines 206-244). -/
theorem C6_domain_gate (cfg : MapConfig) (ldap_account : LdapAccount)
    (jira_account : JiraUser) :
    (jira_account.emailAddress = none ∨ jira_account.displayName = none →
      ldap_jira_match cfg ldap_account jira_account = NO_MATCH) ∧
    (∀ e, jira_account.emailAddress = some e →
      str_ends_with e ("@" ++ cfg.email_domain) = false →
      ldap_jira_match cfg ldap_account jira_account = NO_MATCH) := by
  obtain ⟨n, eo, dn⟩ := jira_account
  constructor
  · intro h
    rcases h with h | h
    · subst h
      cases dn <;> rfl
    · subst h
      cases eo <;> rfl
  · intro e he hend
    subst he
    cases dn with
    | none => rfl
    | some d => simp [ldap_jira_match, hend]

/-- C6 witness: a candidate missing its email attribute scores `NO_MATCH`,
and a candidate whose user name and display name are identical to the
directory record's values but whose email is on another domain also scores
`NO_MATCH`. -/
theorem C6_witness :
    ldap_jira_match demo_config demo_ldap_record
      ⟨"u", none, some "Full Name"⟩ = NO_MATCH ∧
    ldap_jira_match demo_config demo_ldap_record
      ⟨"u", some "u@other.com", some "Full Name"⟩ = NO_MATCH :=
  ⟨(C6_domain_gate demo_config demo_ldap_record ⟨"u", none, some "Full Name"⟩).1
      (Or.inl rfl),
    (C6_domain_gate demo_config demo_ldap_record
      ⟨"u", some "u@other.com", some "Full Name"⟩).2 "u@other.com" rfl (by decide)⟩

/-- C1: at this input the seed loop records the resolved match `u`, yet the
final dict reports `found` with `a1`, the single partial match collected
from the earlier seed: the single-partial write (line 347) is not guarded
by the absence of a resolved match, so it overwrites the matched account
id, contradicting the claim that the matched id is the one reported. -/
theorem C1_match_overwritten :
    (process_seeds demo_config demo_ldap_record bug_jiraS
        (jira_queries demo_config.ldap_fields_jira_search demo_ldap_record)
        [] []).matched = some "u" ∧
    (process_seeds demo_config demo_ldap_record bug_jiraS
        (jira_queries demo_config.ldap_fields_jira_search demo_ldap_record)
        [] []).partial_single_matches = ["a1"] ∧
    (process_username demo_config demo_ldapQ bug_jiraS id "u").dict.status
      = some "found" ∧
    (process_username demo_config demo_ldapQ bug_jiraS id "u").dict.jira_account
      = some "a1" ∧
    ("a1" : String) ≠ "u" := by
  decide

/-- C10: the configured email domain is normalised at construction by
stripping every leading `@` character, so configurations built from
`corp.com` and `@corp.com` give scorers that agree on every
record/candidate pair. -/
theorem C10_domain_normalisation :
    lstrip_at "corp.com" = "corp.com" ∧
    lstrip_at "@corp.com" = "corp.com" ∧
    lstrip_at "@@@corp.com" = "corp.com" ∧
    ∀ (fu fm fn fs : List String) (m : List (String × String))
      (ldap_account : LdapAccount) (jira_account : JiraUser),
      ldap_jira_match (mk_map_config fu fm fn fs "corp.com" m)
          ldap_account jira_account =
        ldap_jira_match (mk_map_config fu fm fn fs "@corp.com" m)
          ldap_account jira_account := by
  refine ⟨by decide, by decide, by decide, ?_⟩
  intro fu fm fn fs m ldap_account jira_account
  have h : lstrip_at "corp.com" = lstrip_at "@corp.com" := by decide
  unfold mk_map_config
  rw [h]

/-- Membership in the seen-set after an add. -/
theorem mem_seenAdd {seen : List String} {n x : String} :
    x ∈ seenAdd seen n ↔ x ∈ seen ∨ x = n := by
  by_cases h : n ∈ seen
  · simp only [seenAdd, if_pos h]
    constructor
    · exact Or.inl
    · rintro (hx | rfl)
      · exact hx
      · exact h
  · simp [seenAdd, if_neg h]

/-- Adding to the seen-set preserves duplicate-freedom. -/
theorem seenAdd_nodup {seen : List String} {n : String} (h : seen.Nodup) :
    (seenAdd seen n).Nodup := by
  unfold seenAdd
  split
  · exact h
  · next hn => simp [List.nodup_append, h, hn]

/-- The candidate loop keeps the seen-set duplicate-free. -/
theorem process_candidates_seen_nodup (cfg : MapConfig) (la : LdapAccount)
    (sr : Bool) :
    ∀ (l : List JiraUser) (seen psm : List String), seen.Nodup →
      (process_candidates cfg la sr l seen psm).seen.Nodup := by
  intro l
  induction l with
  | nil =>
    intro seen psm h
    simpa [process_candidates] using h
  | cons j rest ih =>
    intro seen psm h
    rw [process_candidates]
    split
    · exact ih seen psm h
    · split
      · exact seenAdd_nodup h
      · split
        · exact ih _ _ (seenAdd_nodup h)
        · exact ih _ _ (seenAdd_nodup h)

/-- Every account in the candidate loop's single-partial output either was
already in the input list or is the name of a candidate of this search, and
then the search was a single-result search. -/
theorem process_candidates_psm_origin (cfg : MapConfig) (la : LdapAccount)
    (sr : Bool) :
    ∀ (l : List JiraUser) (seen psm : List String) (x : String),
      x ∈ (process_candidates cfg la sr l seen psm).partial_single_matches →
      x ∈ psm ∨ (sr = true ∧ x ∈ l.map (fun j => j.name)) := by
  intro l
  induction l with
  | nil =>
    intro seen psm x hx
    simp only [process_candidates] at hx
    exact Or.inl hx
  | cons j rest ih =>
    intro seen psm x hx
    rw [process_candidates] at hx
    split at hx
    · rcases ih _ _ _ hx with h | ⟨hs, hm⟩
      · exact Or.inl h
      · exact Or.inr ⟨hs, by simp only [List.map_cons]; exact List.mem_cons_of_mem _ hm⟩
    · split at hx
      · exact Or.inl hx
      · split at hx
        · next hcond =>
          rcases ih _ _ _ hx with h | ⟨hs, hm⟩
          · rcases mem_seenAdd.mp h with h' | rfl
            · exact Or.inl h'
            · exact Or.inr ⟨hcond.2, by simp⟩
          · exact Or.inr ⟨hs, by simp only [List.map_cons]; exact List.mem_cons_of_mem _ hm⟩
        · rcases ih _ _ _ hx with h | ⟨hs, hm⟩
          · exact Or.inl h
          · exact Or.inr ⟨hs, by simp only [List.map_cons]; exact List.mem_cons_of_mem _ hm⟩

/-- Unfolding `single_result_names` on a cons. -/
theorem single_result_names_cons (jiraS : String → List JiraUser) (q : String)
    (cs : List String) :
    single_result_names jiraS (q :: cs) =
      if (jiraS q).length = 1 then
        (jiraS q).map (·.name) ++ single_result_names jiraS cs
      else single_result_names jiraS cs := rfl

/-- Membership in `single_result_names` is preserved by extending the call
list at the front. -/
theorem mem_single_result_names_tail {jiraS : String → List JiraUser}
    {q : String} {cs : List String} {x : String}
    (h : x ∈ single_result_names jiraS cs) :
    x ∈ single_result_names jiraS (q :: cs) := by
  rw [single_result_names_cons]
  split
  · exact List.mem_append_right _ h
  · exact h

/-- A name of a candidate of a single-result search is in
`single_result_names` of any call list starting with that search. -/
theorem mem_single_result_names_head {jiraS : String → List JiraUser}
    {q : String} {cs : List String} {x : String}
    (hlen : (jiraS q).length = 1) (hm : x ∈ (jiraS q).map (fun j => j.name)) :
    x ∈ single_result_names jiraS (q :: cs) := by
  rw [single_result_names_cons, if_pos hlen]
  exact List.mem_append_left _ hm

/-- The seed loop keeps the seen-set duplicate-free. -/
theorem process_seeds_seen_nodup (cfg : MapConfig) (la : LdapAccount)
    (jiraS : String → List JiraUser) :
    ∀ (qs : List String) (seen psm : List String), seen.Nodup →
      (process_seeds cfg la jiraS qs seen psm).seen.Nodup := by
  intro qs
  induction qs with
  | nil =>
    intro seen psm h
    simpa [process_seeds] using h
  | cons q rest ih =>
    intro seen psm h
    simp only [process_seeds]
    split
    · exact process_candidates_seen_nodup cfg la _ _ _ _ h
    · exact ih _ _ (process_candidates_seen_nodup cfg la _ _ _ _ h)

/-- Every account in the seed loop's single-partial output either was
already in the input list or is the name of a candidate of a single-result
search among the searches the loop performed. -/
theorem process_seeds_psm_origin (cfg : MapConfig) (la : LdapAccount)
    (jiraS : String → List JiraUser) :
    ∀ (qs : List String) (seen psm : List String) (x : String),
      x ∈ (process_seeds cfg la jiraS qs seen psm).partial_single_matches →
      x ∈ psm ∨
        x ∈ single_result_names jiraS (process_seeds cfg la jiraS qs seen psm).calls := by
  intro qs
  induction qs with
  | nil =>
    intro seen psm x hx
    simp only [process_seeds] at hx
    exact Or.inl hx
  | cons q rest ih =>
    intro seen psm x hx
    simp only [process_seeds] at hx ⊢
    split at hx
    · rcases process_candidates_psm_origin cfg la _ _ _ _ _ hx with h | ⟨hs, hm⟩
      · exact Or.inl h
      · exact Or.inr (mem_single_result_names_head (by simpa using hs) hm)
    · rcases ih _ _ _ hx with h | h
      · rcases process_candidates_psm_origin cfg la _ _ _ _ _ h with h' | ⟨hs, hm⟩
        · exact Or.inl h'
        · exact Or.inr (mem_single_result_names_head (by simpa using hs) hm)
      · exact Or.inr (mem_single_result_names_tail h)

/-- C2 counterexample: the seen-set is a Python `set`, whose iteration order
is implementation-defined; with the legitimate enumeration `List.reverse`
(a permutation of the set) the ambiguous candidate list is `["b", "a"]`,
not the first-observation order `["a", "b"]` (shown by the identity
enumeration), so the candidate list is not guaranteed to be in insertion
order. -/
theorem C2_counterexample :
    (["b", "a"] : List String).Perm ["a", "b"] ∧
    (process_username demo_config demo_ldapQ noscore_jiraS id "u").dict.jira_results
      = some ["a", "b"] ∧
    (process_username demo_config demo_ldapQ noscore_jiraS List.reverse "u").dict.status
      = some "ambiguous" ∧
    (process_username demo_config demo_ldapQ noscore_jiraS List.reverse "u").dict.jira_results
      = some ["b", "a"] ∧
    (some ["b", "a"] : Option (List String)) ≠ some ["a", "b"] := by
  decide

/-- C2 (amended): a resolution that ends `ambiguous` carries the full
seen-set of observed account ids as its candidate list; the list is the
seen-set in the implementation-defined iteration order of a Python set — a
duplicate-free permutation of the first-observation order, not necessarily
the insertion order itself. -/
theorem C2_ambiguous_candidates (cfg : MapConfig)
    (ldapQ : String → List LdapAccount) (jiraS : String → List JiraUser)
    (enum : List String → List String) (username : String)
    (ldap_account : LdapAccount)
    (henum : ∀ l : List String, (enum l).Perm l)
    (hne : username ≠ "") (hmap : lookupMap cfg.map username = none)
    (hldap : ldapQ username = [ldap_account])
    (hmatched : (process_seeds cfg ldap_account jiraS
      (jira_queries cfg.ldap_fields_jira_search ldap_account) [] []).matched = none)
    (hpsm : (process_seeds cfg ldap_account jiraS
      (jira_queries cfg.ldap_fields_jira_search ldap_account)
      [] []).partial_single_matches.length ≠ 1)
    (hseen : (process_seeds cfg ldap_account jiraS
      (jira_queries cfg.ldap_fields_jira_search ldap_account) [] []).seen ≠ []) :
    (process_username cfg ldapQ jiraS enum username).dict.status
      = some "ambiguous" ∧
    (process_username cfg ldapQ jiraS enum username).dict.jira_results
      = some (enum (process_seeds cfg ldap_account jiraS
          (jira_queries cfg.ldap_fields_jira_search ldap_account) [] []).seen) ∧
    (enum (process_seeds cfg ldap_account jiraS
        (jira_queries cfg.ldap_fields_jira_search ldap_account) [] []).seen).Perm
      (process_seeds cfg ldap_account jiraS
        (jira_queries cfg.ldap_fields_jira_search ldap_account) [] []).seen ∧
    (process_seeds cfg ldap_account jiraS
      (jira_queries cfg.ldap_fields_jira_search ldap_account) [] []).seen.Nodup := by
  rw [process_username_single cfg ldapQ jiraS enum username ldap_account hne hmap
    hldap, hmatched, verdict_ambiguous enum username _ _ hseen hpsm]
  exact ⟨rfl, rfl, henum _,
    process_seeds_seen_nodup cfg ldap_account jiraS _ [] [] List.nodup_nil⟩

/-- C2 witness: a concrete ambiguous resolution whose candidate list is the
enumerated seen-set. -/
theorem C2_witness :
    (process_username demo_config demo_ldapQ noscore_jiraS id "u").dict.status
      = some "ambiguous" ∧
    (process_username demo_config demo_ldapQ noscore_jiraS id "u").dict.jira_results
      = some (id (process_seeds demo_config demo_ldap_record noscore_jiraS
          (jira_queries demo_config.ldap_fields_jira_search demo_ldap_record)
          [] []).seen) ∧
    (id (process_seeds demo_config demo_ldap_record noscore_jiraS
        (jira_queries demo_config.ldap_fields_jira_search demo_ldap_record)
        [] []).seen).Perm
      (process_seeds demo_config demo_ldap_record noscore_jiraS
        (jira_queries demo_config.ldap_fields_jira_search demo_ldap_record)
        [] []).seen ∧
    (process_seeds demo_config demo_ldap_record noscore_jiraS
      (jira_queries demo_config.ldap_fields_jira_search demo_ldap_record)
      [] []).seen.Nodup :=
  C2_ambiguous_candidates demo_config demo_ldapQ noscore_jiraS id "u"
    demo_ldap_record (fun l => List.Perm.refl l) (by decide) (by decide)
    (by decide) (by decide) (by decide) (by decide)

/-- C7: with no resolved match recorded and at least one candidate seen, a
single-partial list holding exactly one account id yields `found` with that
id, and that id entered the list from a single-result search among the seed
searches the loop performed. -/
theorem C7_single_partial_found (cfg : MapConfig)
    (ldapQ : String → List LdapAccount) (jiraS : String → List JiraUser)
    (enum : List String → List String) (username : String)
    (ldap_account : LdapAccount) (a : String)
    (hne : username ≠ "") (hmap : lookupMap cfg.map username = none)
    (hldap : ldapQ username = [ldap_account])
    (hmatched : (process_seeds cfg ldap_account jiraS
      (jira_queries cfg.ldap_fields_jira_search ldap_account) [] []).matched = none)
    (hpsm : (process_seeds cfg ldap_account jiraS
      (jira_queries cfg.ldap_fields_jira_search ldap_account)
      [] []).partial_single_matches = [a])
    (hseen : (process_seeds cfg ldap_account jiraS
      (jira_queries cfg.ldap_fields_jira_search ldap_account) [] []).seen ≠ []) :
    (process_username cfg ldapQ jiraS enum username).dict.status = some "found" ∧
    (process_username cfg ldapQ jiraS enum username).dict.jira_account = some a ∧
    a ∈ single_result_names jiraS (process_seeds cfg ldap_account jiraS
      (jira_queries cfg.ldap_fields_jira_search ldap_account) [] []).calls := by
  rw [process_username_single cfg ldapQ jiraS enum username ldap_account hne hmap
    hldap, hmatched, hpsm, verdict_one_partial enum username _ a hseen]
  refine ⟨rfl, rfl, ?_⟩
  have horigin := process_seeds_psm_origin cfg ldap_account jiraS
    (jira_queries cfg.ldap_fields_jira_search ldap_account) [] [] a
    (by rw [hpsm]; exact List.mem_singleton_self a)
  rcases horigin with h | h
  · exact absurd h (List.not_mem_nil a)
  · exact h

/-- C7 witness: a single-result search contributes the only partial match,
which is resolved as `found`. -/
theorem C7_witness :
    (process_username demo_config demo_ldapQ one_partial_jiraS id "u").dict.status
      = some "found" ∧
    (process_username demo_config demo_ldapQ one_partial_jiraS id "u").dict.jira_account
      = some "a1" ∧
    "a1" ∈ single_result_names one_partial_jiraS
      (process_seeds demo_config demo_ldap_record one_partial_jiraS
        (jira_queries demo_config.ldap_fields_jira_search demo_ldap_record)
        [] []).calls :=
  C7_single_partial_found demo_config demo_ldapQ one_partial_jiraS id "u"
    demo_ldap_record "a1" (by decide) (by decide) (by decide) (by decide)
    (by decide) (by decide)

/-- Every element of `first_dedup l` is an element of `l`. -/
theorem mem_of_mem_first_dedup :
    ∀ (l : List String) (x : String), x ∈ first_dedup l → x ∈ l
  | [], x, h => by simp [first_dedup] at h
  | a :: l, x, h => by
    simp only [first_dedup, List.mem_cons] at h
    rcases h with h | h
    · exact h ▸ List.mem_cons_self a l
    · exact List.mem_cons_of_mem a
        (List.mem_of_mem_filter (mem_of_mem_first_dedup _ x h))
  termination_by l => l.length
  decreasing_by
    simp only [List.length_cons]
    exact Nat.lt_succ_of_le (List.length_filter_le _ _)

/-- `first_dedup` produces a duplicate-free list. -/
theorem first_dedup_nodup : ∀ l : List String, (first_dedup l).Nodup
  | [] => by simp [first_dedup]
  | a :: l => by
    simp only [first_dedup]
    refine List.nodup_cons.mpr ⟨?_, first_dedup_nodup _⟩
    intro hmem
    have hx := List.of_mem_filter (mem_of_mem_first_dedup _ _ hmem)
    simp at hx
  termination_by l => l.length
  decreasing_by
    simp only [List.length_cons]
    exact Nat.lt_succ_of_le (List.length_filter_le _ _)

/-- A skipped field leaves the collected list unchanged. -/
theorem jira_query_step_none (ldap_account : LdapAccount) (qs : List String)
    (field : String) (h : lookupMap ldap_account field = none) :
    jira_query_step ldap_account qs field = qs := by
  simp [jira_query_step, h]

/-- A present field contributes its value through the emptiness and
duplicate checks. -/
theorem jira_query_step_some (ldap_account : LdapAccount) (qs : List String)
    (field v : String) (h : lookupMap ldap_account field = some v) :
    jira_query_step ldap_account qs field =
      if v = "" then qs else if v ∈ qs then qs else qs ++ [v] := by
  simp [jira_query_step, h]

/-- The fold in `jira_queries` equals the insertion fold over the present,
non-empty values of the configured fields. -/
theorem jira_queries_foldl_values (ldap_account : LdapAccount) :
    ∀ (fields : List String) (acc : List String),
      fields.foldl (jira_query_step ldap_account) acc
      = ((fields.filterMap (lookupMap ldap_account)).filter
          (fun v => v ≠ "")).foldl
          (fun qs v => if v ∈ qs then qs else qs ++ [v]) acc := by
  intro fields
  induction fields with
  | nil => intro acc; rfl
  | cons f rest ih =>
    intro acc
    simp only [List.foldl_cons, List.filterMap_cons]
    cases h : lookupMap ldap_account f with
    | none =>
      rw [jira_query_step_none ldap_account acc f h]
      exact ih acc
    | some v =>
      rw [jira_query_step_some ldap_account acc f v h]
      simp only [List.filter_cons]
      by_cases hv : v = ""
      · subst hv
        rw [if_pos rfl]
        have hd : (decide (("" : String) ≠ "")) = false := by decide
        rw [hd]
        simp only [Bool.false_eq_true, if_false]
        exact ih acc
      · rw [if_neg hv]
        have hd : (decide (v ≠ "")) = true := by simp [hv]
        rw [hd]
        simp only [if_true, List.foldl_cons]
        exact ih _

/-- Folding first-occurrence insertion over a list appends exactly the
first-seen deduplication of its not-yet-collected values. -/
theorem foldl_insert_first_dedup :
    ∀ (l acc : List String),
      l.foldl (fun qs v => if v ∈ qs then qs else qs ++ [v]) acc
        = acc ++ first_dedup (l.filter (fun v => v ∉ acc)) := by
  intro l
  induction l with
  | nil => intro acc; simp [first_dedup]
  | cons v t ih =>
    intro acc
    simp only [List.foldl_cons, List.filter_cons]
    by_cases hv : v ∈ acc
    · rw [if_pos hv]
      have : (decide (v ∉ acc)) = false := by simp [hv]
      rw [this]
      exact ih acc
    · rw [if_neg hv]
      have : (decide (v ∉ acc)) = true := by simp [hv]
      rw [this]
      rw [ih (acc ++ [v])]
      have hfil : t.filter (fun x => x ∉ acc ++ [v])
          = (t.filter (fun x => x ∉ acc)).filter (fun x => x ≠ v) := by
        rw [List.filter_filter]
        apply List.filter_congr
        intro x _
        by_cases h1 : x = v <;> by_cases h2 : x ∈ acc <;>
          simp [h1, h2, List.mem_append]
      rw [hfil]
      simp only [if_true, first_dedup, List.append_assoc, List.cons_append,
        List.nil_append]

/-- C8: the seed sequence built from the single directory record is
duplicate-free and equals the spec-side formulation: the configured
ticket-search fields' present, non-empty values in configured order, with
every value already collected from an earlier field dropped (first-seen
order preserved). -/
theorem C8_seed_sequence (fields : List String) (ldap_account : LdapAccount) :
    jira_queries fields ldap_account = seed_sequence_spec fields ldap_account ∧
    (jira_queries fields ldap_account).Nodup := by
  have h : jira_queries fields ldap_account
      = seed_sequence_spec fields ldap_account := by
    unfold jira_queries seed_sequence_spec
    rw [jira_queries_foldl_values, foldl_insert_first_dedup]
    simp only [List.nil_append]
    congr 1
    exact List.filter_eq_self.mpr (fun a _ => by simp)
  exact ⟨h, h ▸ first_dedup_nodup _⟩

/-- Dict lookup distributes over list append: the first list's binding wins. -/
theorem lookupMap_append (l₁ l₂ : List (String × String)) (k : String) :
    lookupMap (l₁ ++ l₂) k = (lookupMap l₁ k).or (lookupMap l₂ k) := by
  unfold lookupMap
  rw [List.find?_append]
  cases List.find? (fun p => p.1 == k) l₁ <;> simp

/-- A key absent from the update keeps its previous value. -/
theorem lookupMap_map_update_none (old upd : List (String × String))
    (k : String) (h : lookupMap upd k = none) :
    lookupMap (map_update old upd) k = lookupMap old k := by
  unfold map_update
  rw [lookupMap_append, h]
  cases lookupMap old k <;> rfl

/-- A key present before the update is still present after it. -/
theorem lookupMap_map_update_isSome (old upd : List (String × String))
    (k : String) (h : (lookupMap old k).isSome) :
    (lookupMap (map_update old upd) k).isSome := by
  unfold map_update
  rw [lookupMap_append]
  cases hu : lookupMap upd k
  · simpa using h
  · rfl

/-- The instance map after a batch call is the dict-update of the previous
map with the loaded file map. -/
theorem find_jira_accounts_map (cfg : MapConfig)
    (file_map : List (String × String)) (ldapQ : String → List LdapAccount)
    (jiraS : String → List JiraUser) (enum : List String → List String)
    (usernames : List String) :
    (find_jira_accounts cfg file_map ldapQ jiraS enum usernames).1
      = map_update cfg.map file_map := rfl

/-- Folding dict-updates whose files all miss `k` keeps the value at `k`. -/
theorem foldl_map_update_none (k : String) :
    ∀ (files : List (List (String × String))) (m : List (String × String)),
      (∀ f ∈ files, lookupMap f k = none) →
      lookupMap (files.foldl map_update m) k = lookupMap m k := by
  intro files
  induction files with
  | nil => intro m _; rfl
  | cons f rest ih =>
    intro m hf
    simp only [List.foldl_cons]
    rw [ih (map_update m f) (fun g hg => hf g (List.mem_cons_of_mem f hg)),
      lookupMap_map_update_none m f k (hf f (List.mem_cons_self f rest))]

/-- Folding dict-updates never removes a key. -/
theorem foldl_map_update_isSome (k : String) :
    ∀ (files : List (List (String × String))) (m : List (String × String)),
      (lookupMap m k).isSome →
      (lookupMap (files.foldl map_update m) k).isSome := by
  intro files
  induction files with
  | nil => intro m h; exact h
  | cons f rest ih =>
    intro m h
    simp only [List.foldl_cons]
    exact ih (map_update m f) (lookupMap_map_update_isSome m f k h)

/-- C9 counterexample: an override entry effective in an earlier call does
not remain when a later map file re-maps its key — the merge is a
dict-update, so the fresh file's value wins over the accumulated one. -/
theorem C9_counterexample :
    lookupMap remap_config.map "u" = some "a" ∧
    lookupMap
        (find_jira_accounts remap_config [("u", "b")] (fun _ => [])
          (fun _ => []) id []).1 "u" = some "b" ∧
    (some "b" : Option String) ≠ some "a" := by
  decide

/-- C9 (amended): across successive `find_jira_accounts` calls the instance
map accumulates by dict-update merge rather than replacement: a key never
disappears, an entry whose key appears in no later map file keeps its
value, and such an entry keeps taking precedence over dynamic resolution —
resolving its key returns `found` with the mapped account id and performs
no adapter call.  (A key that re-appears in a later file keeps precedence
but takes the later file's value, as the counterexample shows.) -/
theorem C9_map_accumulates (cfg : MapConfig)
    (files : List (List (String × String)))
    (ldapQ : String → List LdapAccount) (jiraS : String → List JiraUser)
    (enum : List String → List String) (usernames : List String)
    (k v : String) (hne : k ≠ "") (hk : lookupMap cfg.map k = some v)
    (hfiles : ∀ f ∈ files, lookupMap f k = none) :
    lookupMap
        (files.foldl
          (fun m f => (find_jira_accounts { cfg with map := m } f ldapQ jiraS
            enum usernames).1) cfg.map) k = some v ∧
    (∀ k', (lookupMap cfg.map k').isSome →
      (lookupMap
        (files.foldl
          (fun m f => (find_jira_accounts { cfg with map := m } f ldapQ jiraS
            enum usernames).1) cfg.map) k').isSome) ∧
    process_username
        { cfg with
          map := files.foldl
            (fun m f => (find_jira_accounts { cfg with map := m } f ldapQ jiraS
              enum usernames).1) cfg.map }
        ldapQ jiraS enum k =
      ⟨{ username := k, status := some "found", jira_account := some v },
        [], []⟩ := by
  have hfold : (files.foldl
      (fun m f => (find_jira_accounts { cfg with map := m } f ldapQ jiraS
        enum usernames).1) cfg.map) = files.foldl map_update cfg.map := by
    simp only [find_jira_accounts_map]
  rw [hfold]
  have h1 : lookupMap (files.foldl map_update cfg.map) k = some v := by
    rw [foldl_map_update_none k files cfg.map hfiles]
    exact hk
  refine ⟨h1, ?_, ?_⟩
  · intro k' hk'
    exact foldl_map_update_isSome k' files cfg.map hk'
  · exact process_username_override _ ldapQ jiraS enum k v hne h1

/-- C9 witness: an entry accumulated from an earlier call survives a later
call whose map file does not contain its key, and still short-circuits
resolution. -/
theorem C9_witness :
    lookupMap
        ([[("bob", "bob.j")]].foldl
          (fun m f => (find_jira_accounts { override_config with map := m } f
            demo_ldapQ bug_jiraS id ["bob"]).1) override_config.map)
        "alice" = some "alice.j" ∧
    (∀ k', (lookupMap override_config.map k').isSome →
      (lookupMap
        ([[("bob", "bob.j")]].foldl
          (fun m f => (find_jira_accounts { override_config with map := m } f
            demo_ldapQ bug_jiraS id ["bob"]).1) override_config.map)
        k').isSome) ∧
    process_username
        { override_config with
          map := [[("bob", "bob.j")]].foldl
            (fun m f => (find_jira_accounts { override_config with map := m } f
              demo_ldapQ bug_jiraS id ["bob"]).1) override_config.map }
        demo_ldapQ bug_jiraS id "alice" =
      ⟨{ username := "alice", status := some "found",
         jira_account := some "alice.j" }, [], []⟩ :=
  C9_map_accumulates override_config [[("bob", "bob.j")]] demo_ldapQ bug_jiraS
    id ["bob"] "alice" "alice.j" (by decide) (by decide) (by decide)

end Ldap2Jira
